import Mathlib

/-!
# ZKP-Vault proctoring engine — verification of the incident / trust-score core

Shallow embedding of the Incident Detection & Trust Scoring Engine of the
ZKP-Vault exam-proctoring client:

* `StudentExam` — the tracker of `StudentExam.tsx`: `checkIncidents`,
  `addIncident`, and the finalizer `handleEndExam` (student hash, proof hash,
  proof record persisted to the proof store).
* `AIProctor` — the `AIProctorService` scoring of `ai-proctor.service.ts`:
  `calculateTrustScore` over the incident ledger.
* `SHA256` — the `crypto.subtle.digest('SHA-256', …)` primitive both
  finalizers call, implemented over `Nat` bytes so digests evaluate by `decide`.

Timestamps are `Nat` milliseconds; every place the source calls `Date.now()`
takes the current instant as an explicit argument (`now`), so all state
transitions are pure functions of their inputs.
-/

namespace SHA256

/-- 2^32, the word modulus of SHA-256. -/
def M32 : Nat := 4294967296

/-- Truncate to a 32-bit word. -/
def w32 (n : Nat) : Nat := n % M32

/-- Right-rotation of a 32-bit word by `k`, via division and remainder
(for `n < 2^32`, `k ≤ 32`). -/
def rotw (k n : Nat) : Nat := n / 2 ^ k + n % 2 ^ k * 2 ^ (32 - k)

/-- SHA-256 Σ₀ (rotations by 2, 13, 22). -/
def sumA (x : Nat) : Nat := rotw 2 x ^^^ rotw 13 x ^^^ rotw 22 x

/-- SHA-256 Σ₁ (rotations by 6, 11, 25). -/
def sumE (x : Nat) : Nat := rotw 6 x ^^^ rotw 11 x ^^^ rotw 25 x

/-- SHA-256 σ₀ (rotations by 7, 18; shift by 3). -/
def sigLo (x : Nat) : Nat := rotw 7 x ^^^ rotw 18 x ^^^ x / 2 ^ 3

/-- SHA-256 σ₁ (rotations by 17, 19; shift by 10). -/
def sigHi (x : Nat) : Nat := rotw 17 x ^^^ rotw 19 x ^^^ x / 2 ^ 10

/-- SHA-256 Ch, the bitwise complement written as `2^32 - 1 - x`. -/
def chW (x y z : Nat) : Nat := ((M32 - 1 - x) &&& z) ^^^ (x &&& y)

/-- SHA-256 Maj. -/
def majW (x y z : Nat) : Nat := (y &&& z) ^^^ (x &&& z) ^^^ (x &&& y)

/-- The 64 SHA-256 round constants of FIPS 180-4 (decimal). -/
def K : List Nat :=
  [1116352408, 1899447441, 3049323471, 3921009573, 961987163,
   1508970993, 2453635748, 2870763221, 3624381080, 310598401,
   607225278, 1426881987, 1925078388, 2162078206, 2614888103,
   3248222580, 3835390401, 4022224774, 264347078, 604807628,
   770255983, 1249150122, 1555081692, 1996064986, 2554220882,
   2821834349, 2952996808, 3210313671, 3336571891, 3584528711,
   113926993, 338241895, 666307205, 773529912, 1294757372,
   1396182291, 1695183700, 1986661051, 2177026350, 2456956037,
   2730485921, 2820302411, 3259730800, 3345764771, 3516065817,
   3600352804, 4094571909, 275423344, 430227734, 506948616,
   659060556, 883997877, 958139571, 1322822218, 1537002063,
   1747873779, 1955562222, 2024104815, 2227730452, 2361852424,
   2428436474, 2756734187, 3204031479, 3329325298]

/-- The eight initial SHA-256 hash words of FIPS 180-4 (decimal). -/
def H0 : List Nat :=
  [1779033703, 3144134277, 1013904242, 2773480762,
   1359893119, 2600822924, 528734635, 1541459225]

/-- Pad a byte message: `0x80`, zeros, then the 64-bit big-endian bit length. -/
def padBytes (msg : List Nat) : List Nat :=
  let len := msg.length
  let zeros := (64 - (len + 9) % 64) % 64
  msg ++ [128] ++ List.replicate zeros 0
      ++ (List.range 8).map (fun i => 8 * len / 2 ^ (8 * (7 - i)) % 256)

/-- The 16 big-endian 32-bit words of one 64-byte block. -/
def wordsOfBlock (bytes : List Nat) : List Nat :=
  (List.range 16).map (fun i =>
    bytes.getD (4 * i) 0 * 16777216 + bytes.getD (4 * i + 1) 0 * 65536
      + bytes.getD (4 * i + 2) 0 * 256 + bytes.getD (4 * i + 3) 0)

/-- Extend 16 message words to the 64-entry message schedule. -/
def schedule (ws : List Nat) : List Nat :=
  (List.range 48).foldl
    (fun w _ =>
      let i := w.length
      w ++ [w32 (sigHi (w.getD (i - 2) 0) + w.getD (i - 7) 0
                  + sigLo (w.getD (i - 15) 0) + w.getD (i - 16) 0)])
    ws

/-- One compression round on the eight working words `[a,b,c,d,e,f,g,h]`. -/
def round1 (s : List Nat) (kw : Nat × Nat) : List Nat :=
  match s with
  | [a, b, c, d, e, f, g, h] =>
    let t1 := w32 (h + sumE e + chW e f g + kw.1 + kw.2)
    let t2 := w32 (sumA a + majW a b c)
    [w32 (t1 + t2), a, b, c, w32 (d + t1), e, f, g]
  | _ => s

/-- Compress one 64-byte block into the running hash state. -/
def compress (h : List Nat) (block : List Nat) : List Nat :=
  let ws := schedule (wordsOfBlock block)
  let s := (K.zip ws).foldl round1 h
  (h.zip s).map (fun p => w32 (p.1 + p.2))

/-- Split a padded message into its 64-byte blocks. -/
def blocks (l : List Nat) : List (List Nat) :=
  (List.range (l.length / 64)).map (fun i => (l.drop (64 * i)).take 64)

/-- SHA-256 of a byte message, as its 32 digest bytes. -/
def sha256 (msg : List Nat) : List Nat :=
  let hN := (blocks (padBytes msg)).foldl compress H0
  (hN.map (fun w => [w / 16777216 % 256, w / 65536 % 256, w / 256 % 256, w % 256])).flatten

/-- Lowercase hex digit of a nibble. -/
def hexDigit (n : Nat) : Char := if n < 10 then Char.ofNat (48 + n) else Char.ofNat (87 + n)

/-- Lowercase hex string of a byte list (two digits per byte, as the source's
`b.toString(16).padStart(2, '0')` produces for bytes). -/
def hexOfBytes (bs : List Nat) : String :=
  String.mk ((bs.map (fun b => [hexDigit (b / 16), hexDigit (b % 16)])).flatten)

/-- Bytes of an ASCII string, as `TextEncoder().encode` yields on ASCII input. -/
def strBytes (s : String) : List Nat := s.data.map Char.toNat

end SHA256

/-- The closed set of incident classes. The first four are the members of the
`Incident['type']` union of `StudentExam.tsx`; `absence` additionally occurs in
the `IncidentLog['type']` union of the `AIProctorService`. -/
inductive IncidentType where
  | no_face
  | multi_face
  | looking_away
  | phone_detected
  | absence
deriving DecidableEq, Repr

/-- An incident record: `{ type, timestamp, details }`. -/
structure Incident where
  type : IncidentType
  timestamp : Nat
  details : String
deriving DecidableEq, Repr

namespace StudentExam

/-- A detection sample as delivered to `checkIncidents(faceCount, phoneDetected)`
at instant `timestamp`. `faceCount` is `Int` because the source's `number` field
is not constrained to be non-negative. -/
structure Sample where
  faceCount : Int
  phoneDetected : Bool
  timestamp : Nat
deriving DecidableEq, Repr

/-- The per-session mutable state of `StudentExam.tsx`: the consecutive-frame
counters (`consecutiveNoFaceRef`, `consecutiveMultiFaceRef`), the per-type last
incident times (`lastIncidentTimeRef`, a record defaulting to `0` via `|| 0`),
the incident ledger (`incidents`) and the incrementally maintained
`trustScore`. -/
structure ExamState where
  consecutiveNoFace : Nat
  consecutiveMultiFace : Nat
  lastIncidentTime : IncidentType → Nat
  incidents : List Incident
  trustScore : Int

/-- The session-start state: counters `0`, no incident ever logged,
empty ledger, `trustScore = 100`. -/
def initState : ExamState :=
  { consecutiveNoFace := 0
    consecutiveMultiFace := 0
    lastIncidentTime := fun _ => 0
    incidents := []
    trustScore := 100 }

/-- The penalty applied by `addIncident`: the source's if-chain sets `penalty`
to 5 / 10 / 15 for `no_face` / `multi_face` / `phone_detected` and leaves the
initial `penalty = 0` for every other type. -/
def penalty : IncidentType → Int
  | .no_face => 5
  | .multi_face => 10
  | .phone_detected => 15
  | _ => 0

/-- `addIncident(type, details)` at instant `now`: append the record to the
ledger, lower `trustScore` by the type's penalty clamped below at 0
(`Math.max(0, current - penalty)`), and set `lastIncidentTimeRef.current[type]`
to `now`. -/
def addIncident (type : IncidentType) (details : String) (now : Nat)
    (s : ExamState) : ExamState :=
  { s with
    incidents := s.incidents ++ [⟨type, now, details⟩]
    trustScore := max 0 (s.trustScore - penalty type)
    lastIncidentTime := fun t => if t = type then now else s.lastIncidentTime t }

/-- The cooldown test `canLog`: `(now - (lastIncidentTimeRef.current[type] || 0))
> 3000`. With `Nat` truncated subtraction this agrees with the source's signed
subtraction: both are false whenever `now ≤ lastIncidentTime type + 3000`. -/
def canLog (s : ExamState) (now : Nat) (type : IncidentType) : Prop :=
  3000 < now - s.lastIncidentTime type

instance (s : ExamState) (now : Nat) (type : IncidentType) :
    Decidable (canLog s now type) := by
  unfold canLog; infer_instance

/-- The first block of `checkIncidents`: the no-face streak. On `faceCount === 0`
the counter is incremented, and once it exceeds 5 with the class
cooldown-eligible an incident is logged and the counter reset; any other
`faceCount` resets the counter to 0. -/
def noFaceStage (faceCount : Int) (now : Nat) (s : ExamState) : ExamState :=
  if faceCount = 0 then
    let c := s.consecutiveNoFace + 1
    if 5 < c ∧ canLog s now .no_face then
      { addIncident .no_face "No face detected" now s with consecutiveNoFace := 0 }
    else
      { s with consecutiveNoFace := c }
  else
    { s with consecutiveNoFace := 0 }

/-- The second block of `checkIncidents`: the multi-face streak, threshold
`> 3`. -/
def multiFaceStage (faceCount : Int) (now : Nat) (s : ExamState) : ExamState :=
  if 1 < faceCount then
    let c := s.consecutiveMultiFace + 1
    if 3 < c ∧ canLog s now .multi_face then
      { addIncident .multi_face (toString faceCount ++ " faces detected") now s with
          consecutiveMultiFace := 0 }
    else
      { s with consecutiveMultiFace := c }
  else
    { s with consecutiveMultiFace := 0 }

/-- The third block of `checkIncidents`: the undebounced phone check. -/
def phoneStage (phoneDetected : Bool) (now : Nat) (s : ExamState) : ExamState :=
  if phoneDetected ∧ canLog s now .phone_detected then
    addIncident .phone_detected "Mobile phone detected" now s
  else
    s

/-- `checkIncidents(faceCount, phoneDetected)` at instant `now`: the three
blocks of the source in order — no-face streak (threshold `> 5`), multi-face
streak (threshold `> 3`), then the undebounced phone check — threaded through
the state, with each counter incremented before its threshold test and fully
reset on a non-triggering sample. -/
def checkIncidents (faceCount : Int) (phoneDetected : Bool) (now : Nat)
    (s : ExamState) : ExamState :=
  phoneStage phoneDetected now (multiFaceStage faceCount now (noFaceStage faceCount now s))

/-- Process one detection sample (one tick of the 500 ms detection loop). -/
def pushSample (s : ExamState) (x : Sample) : ExamState :=
  checkIncidents x.faceCount x.phoneDetected x.timestamp s

/-- Process a whole ordered sample sequence from the session-start state. -/
def runSamples (xs : List Sample) : ExamState :=
  xs.foldl pushSample initState

end StudentExam

namespace AIProctor

/-- Number of ledger records of type `t` — one entry of the `incidentCounts`
tally that `calculateTrustScore` builds with its `forEach`. -/
def countType (t : IncidentType) (incidents : List Incident) : Nat :=
  (incidents.filter (fun i => i.type = t)).length

/-- `AIProctorService.calculateTrustScore`: start from 100, subtract
`count × penalty` for each class (5 / 10 / 3 / 15 / 8), and clamp the result
with `Math.max(0, Math.min(100, score))`. -/
def calculateTrustScore (incidents : List Incident) : Int :=
  let score : Int :=
    100 - (countType .no_face incidents : Int) * 5
        - (countType .multi_face incidents : Int) * 10
        - (countType .looking_away incidents : Int) * 3
        - (countType .phone_detected incidents : Int) * 15
        - (countType .absence incidents : Int) * 8
  max 0 (min 100 score)

end AIProctor

namespace StudentExam

/-- An exam question as `computeAcademicScore` reads it: its id and optional
correct answer. -/
structure Question where
  id : String
  correctAnswer : Option String
deriving DecidableEq, Repr

/-- `computeAcademicScore`: `Math.round((correct / total) * 100)` with 0 for an
empty question list; a question counts as correct when it has a `correctAnswer`
and the student's stored answer equals it. `Math.round` (half away from zero on
non-negatives) is `⌊(200·correct + total) / (2·total)⌋`. The `currentAnswers`
record is modelled as an association list with unique keys. -/
def computeAcademicScore (questions : List Question)
    (answers : List (String × String)) : Nat :=
  let correct := questions.countP (fun q =>
    match q.correctAnswer with
    | some ca => answers.lookup q.id == some ca
    | none => false)
  if questions.length = 0 then 0
  else (200 * correct + questions.length) / (2 * questions.length)

/-- A JSON string literal (the strings serialized here contain no characters
that `JSON.stringify` escapes). -/
def jstr (s : String) : String := "\"" ++ s ++ "\""

/-- `JSON.stringify` of the `answers` record, keys in insertion order. -/
def answersJSON (answers : List (String × String)) : String :=
  "\x7b" ++ String.intercalate ","
      (answers.map (fun kv => jstr kv.1 ++ ":" ++ jstr kv.2)) ++ "\x7d"

/-- `JSON.stringify(proofData)` for the `proofData` object assembled by
`handleEndExam`: fields `examId, studentHash, trustScore, academicScore,
incidents (a count), timestamp, answers`, in the source's insertion order. -/
def proofJSON (examId studentHash : String) (trustScore : Int)
    (academicScore : Nat) (incidentCount : Nat) (timestamp : Nat)
    (answers : List (String × String)) : String :=
  "\x7b" ++ jstr "examId" ++ ":" ++ jstr examId
    ++ "," ++ jstr "studentHash" ++ ":" ++ jstr studentHash
    ++ "," ++ jstr "trustScore" ++ ":" ++ toString trustScore
    ++ "," ++ jstr "academicScore" ++ ":" ++ toString academicScore
    ++ "," ++ jstr "incidents" ++ ":" ++ toString incidentCount
    ++ "," ++ jstr "timestamp" ++ ":" ++ toString timestamp
    ++ "," ++ jstr "answers" ++ ":" ++ answersJSON answers
    ++ "\x7d"

/-- The anonymized student hash: `'0x' + hex(SHA-256(studentId + '_zkp-vault'))`. -/
def studentHashOf (studentId : String) : String :=
  "0x" ++ SHA256.hexOfBytes (SHA256.sha256 (SHA256.strBytes (studentId ++ "_zkp-vault")))

/-- The `sessionData` object `handleEndExam` passes to `onComplete`
(the `detections: []` literal and the echoed `examData` are omitted as
constants of no further use). -/
structure SessionData where
  examId : String
  studentId : String
  studentHash : String
  startTime : Int
  endTime : Nat
  incidents : List Incident
  trustScore : Int
  academicScore : Nat
  proofHash : String
  answers : List (String × String)
deriving DecidableEq, Repr

/-- The `newProof` object appended to the `zkp_vault_proofs` store. -/
structure ProofRecord where
  studentHash : String
  trustScore : Int
  academicScore : Nat
  proofHash : String
  timestamp : Nat
  examId : String
  incidents : Nat
deriving DecidableEq, Repr

/-- `handleEndExam` at instant `now`: compute the student hash, the academic
score, the proof hash of the canonical `proofData` JSON, assemble the session
data, and append the new proof record to the persisted proof store. The
function is total: the source has no session-state check and no failure path,
so every call — including a repeated one — produces a fresh digest. -/
def handleEndExam (examId studentId : String) (questions : List Question)
    (answers : List (String × String)) (examDuration timeRemaining : Nat)
    (s : ExamState) (now : Nat) (store : List ProofRecord) :
    SessionData × List ProofRecord :=
  let studentHash := studentHashOf studentId
  let academicScore := computeAcademicScore questions answers
  let proofHash := "0x" ++ SHA256.hexOfBytes (SHA256.sha256 (SHA256.strBytes
    (proofJSON examId studentHash s.trustScore academicScore
      s.incidents.length now answers)))
  let sessionData : SessionData :=
    { examId := examId
      studentId := studentId
      studentHash := studentHash
      startTime := (now : Int) - ((examDuration : Int) * 60 - (timeRemaining : Int)) * 1000
      endTime := now
      incidents := s.incidents
      trustScore := s.trustScore
      academicScore := academicScore
      proofHash := proofHash
      answers := answers }
  let newProof : ProofRecord :=
    { studentHash := studentHash
      trustScore := s.trustScore
      academicScore := academicScore
      proofHash := proofHash
      timestamp := now
      examId := examId
      incidents := s.incidents.length }
  (sessionData, store ++ [newProof])

end StudentExam

namespace Spec

/-- The spec's fixed penalty table (§4.3): NoFace 5, MultiFace 10,
LookingAway 3, PhoneDetected 15, Absence 8. Stated from the spec's words, to be
compared with the source's `calculateTrustScore`. -/
def penaltyTable : IncidentType → Int
  | .no_face => 5
  | .multi_face => 10
  | .looking_away => 3
  | .phone_detected => 15
  | .absence => 8

/-- The spec's `Σ penalty(class) over all records`. -/
def totalPenalty (incidents : List Incident) : Int :=
  (incidents.map (fun i => penaltyTable i.type)).sum

/-- The spec's score formula `clamp(100 − Σ penalty, 0, 100)`, stated from the
spec's words for the refinement comparison with `AIProctor.calculateTrustScore`. -/
def score (incidents : List Incident) : Int :=
  max 0 (min 100 (100 - totalPenalty incidents))

end Spec

namespace StudentExam

/-- A `faceCount = 0` sample (no-face trigger) at instant `t`. -/
def noFaceSample (t : Nat) : Sample := ⟨0, false, t⟩

/-- A single-face, no-phone sample (non-triggering) at instant `t`. -/
def faceSample (t : Nat) : Sample := ⟨1, false, t⟩

/-- A single-face sample with a phone detection at instant `t`. -/
def phoneSample (t : Nat) : Sample := ⟨1, true, t⟩

/-- Cooldown spacing between two ledger records: if they are of the same
class, they were logged more than the 3000 ms cooldown apart. -/
def gapOK (a b : Incident) : Prop :=
  a.type = b.type → a.timestamp + 3000 < b.timestamp

/-- The cooldown invariant: same-class ledger records are pairwise more than
3000 ms apart (in ledger order), and `lastIncidentTime` bounds the timestamp of
every record of its class. -/
def ledgerInv (s : ExamState) : Prop :=
  List.Pairwise gapOK s.incidents ∧
    ∀ i ∈ s.incidents, i.timestamp ≤ s.lastIncidentTime i.type

/-- The state reached by a sequence of direct `addIncident` appends from the
session-start state: the incremental score maintenance of C8. -/
def appendRun (appends : List (IncidentType × String × Nat)) : ExamState :=
  appends.foldl (fun s a => addIncident a.1 a.2.1 a.2.2 s) initState

/-- A run of exactly 5 consecutive no-face samples, all cooldown-eligible
(every timestamp exceeds the 3000 ms cooldown measured from the never-logged
default 0). -/
def fiveNoFace : List Sample :=
  [noFaceSample 4000, noFaceSample 4500, noFaceSample 5000,
   noFaceSample 5500, noFaceSample 6000]

/-- A no-face streak of 5 at early instants: the counter reaches 5 and no
incident is logged (the threshold `> 5` is not crossed). -/
def preStreak : ExamState :=
  runSamples [noFaceSample 100, noFaceSample 600, noFaceSample 1100,
    noFaceSample 1600, noFaceSample 2100]

/-- Two qualifying no-face streaks: the first logs at t = 6500; the second
reaches its qualifying point at t = 8000, within the 3000 ms cooldown. -/
def streaksClose : List Sample :=
  (List.range 6).map (fun i => noFaceSample (4000 + 500 * i)) ++
    (List.range 6).map (fun i => noFaceSample (7000 + 200 * i))

/-- Two qualifying no-face streaks: the first logs at t = 6500; the second
reaches its qualifying point at t = 12500, past the 3000 ms cooldown. -/
def streaksFar : List Sample :=
  (List.range 6).map (fun i => noFaceSample (4000 + 500 * i)) ++
    (List.range 6).map (fun i => noFaceSample (10000 + 500 * i))

/-- The sample stream of the worked finalization scenario: a single phone
detection at t = 4000 (one `phone_detected` incident, score 85). -/
def sessionSamples : List Sample := [phoneSample 4000]

/-- Finalize the `sessionSamples` session once at t = 5000 and then a second
time at t = 6000 against the store left by the first call (C3's failing
input: two `handleEndExam` calls for the same session). -/
def finalizeTwice : SessionData × List ProofRecord :=
  let r1 := handleEndExam "examA" "studentX" [] [] 60 3600
    (runSamples sessionSamples) 5000 []
  handleEndExam "examA" "studentX" [] [] 60 3600
    (runSamples sessionSamples) 6000 r1.2

end StudentExam

/-- Seven phone-detection records: total penalty 105, so the clamped score is
already 0. -/
def phone7 : List Incident :=
  List.replicate 7 ⟨.phone_detected, 0, "Mobile phone detected"⟩

/-- FIPS 180-4 test vector: SHA-256 of `"abc"`. -/
theorem sha256_abc :
    SHA256.hexOfBytes (SHA256.sha256 (SHA256.strBytes "abc")) =
      "ba7816bf8f01cfea414140de5dae2223b00361a396177a9cb410ff61f20015ad" := by
  decide

namespace StudentExam

theorem penalty_nonneg (t : IncidentType) : 0 ≤ penalty t := by
  cases t <;> simp [penalty]

theorem noFaceStage_score (fc : Int) (now : Nat) (s : ExamState)
    (h : 0 ≤ s.trustScore) :
    0 ≤ (noFaceStage fc now s).trustScore ∧
      (noFaceStage fc now s).trustScore ≤ s.trustScore := by
  simp only [noFaceStage, addIncident]
  split_ifs <;> simp [penalty] <;> omega

theorem multiFaceStage_score (fc : Int) (now : Nat) (s : ExamState)
    (h : 0 ≤ s.trustScore) :
    0 ≤ (multiFaceStage fc now s).trustScore ∧
      (multiFaceStage fc now s).trustScore ≤ s.trustScore := by
  simp only [multiFaceStage, addIncident]
  split_ifs <;> simp [penalty] <;> omega

theorem phoneStage_score (pd : Bool) (now : Nat) (s : ExamState)
    (h : 0 ≤ s.trustScore) :
    0 ≤ (phoneStage pd now s).trustScore ∧
      (phoneStage pd now s).trustScore ≤ s.trustScore := by
  simp only [phoneStage, addIncident]
  split_ifs <;> simp [penalty] <;> omega

/-- One `checkIncidents` call keeps the score in `[0, previous score]`. -/
theorem checkIncidents_score (fc : Int) (pd : Bool) (now : Nat) (s : ExamState)
    (h : 0 ≤ s.trustScore) :
    0 ≤ (checkIncidents fc pd now s).trustScore ∧
      (checkIncidents fc pd now s).trustScore ≤ s.trustScore := by
  have h1 := noFaceStage_score fc now s h
  have h2 := multiFaceStage_score fc now _ h1.1
  have h3 := phoneStage_score pd now _ h2.1
  exact ⟨h3.1, h3.2.trans (h2.2.trans h1.2)⟩

/-- Over any sample run, the score stays in `[0, starting score]`. -/
theorem foldl_score (xs : List Sample) (s : ExamState) (h : 0 ≤ s.trustScore) :
    0 ≤ (xs.foldl pushSample s).trustScore ∧
      (xs.foldl pushSample s).trustScore ≤ s.trustScore := by
  induction xs generalizing s with
  | nil => exact ⟨h, le_refl _⟩
  | cons x xs ih =>
    have hstep := checkIncidents_score x.faceCount x.phoneDetected x.timestamp s h
    have hrest := ih (pushSample s x) hstep.1
    exact ⟨hrest.1, le_trans hrest.2 hstep.2⟩

end StudentExam

/-- C1. For every sequence of detection samples, the trust score starts at 100
and satisfies `0 ≤ trustScore ≤ 100` after every `pushSample` call (every
prefix of the stream is itself a sequence, so the bound holds at each step). -/
theorem C1_score_bounded :
    StudentExam.initState.trustScore = 100 ∧
    ∀ xs : List StudentExam.Sample,
      0 ≤ (StudentExam.runSamples xs).trustScore ∧
        (StudentExam.runSamples xs).trustScore ≤ 100 := by
  refine ⟨rfl, fun xs => ?_⟩
  have h := StudentExam.foldl_score xs StudentExam.initState (by norm_num [StudentExam.initState])
  exact ⟨h.1, h.2.trans_eq rfl⟩

/-- C10. The trust score never increases during a session: it starts at 100 and
every further `pushSample` call leaves it unchanged or lower. -/
theorem C10_score_never_increases :
    StudentExam.initState.trustScore = 100 ∧
    ∀ (xs : List StudentExam.Sample) (x : StudentExam.Sample),
      (StudentExam.runSamples (xs ++ [x])).trustScore ≤
        (StudentExam.runSamples xs).trustScore := by
  refine ⟨rfl, fun xs x => ?_⟩
  have h0 : (0 : Int) ≤ (StudentExam.runSamples xs).trustScore :=
    (StudentExam.foldl_score xs StudentExam.initState
      (by norm_num [StudentExam.initState])).1
  have hstep := StudentExam.checkIncidents_score x.faceCount x.phoneDetected
    x.timestamp (StudentExam.runSamples xs) h0
  simpa [StudentExam.runSamples, List.foldl_append, StudentExam.pushSample] using hstep.2

namespace StudentExam

theorem noFaceStage_appends (fc : Int) (now : Nat) (s : ExamState) :
    ∃ t, (noFaceStage fc now s).incidents = s.incidents ++ t := by
  simp only [noFaceStage, addIncident]
  split_ifs <;> first | exact ⟨_, rfl⟩ | exact ⟨[], by simp⟩

theorem multiFaceStage_appends (fc : Int) (now : Nat) (s : ExamState) :
    ∃ t, (multiFaceStage fc now s).incidents = s.incidents ++ t := by
  simp only [multiFaceStage, addIncident]
  split_ifs <;> first | exact ⟨_, rfl⟩ | exact ⟨[], by simp⟩

theorem phoneStage_appends (pd : Bool) (now : Nat) (s : ExamState) :
    ∃ t, (phoneStage pd now s).incidents = s.incidents ++ t := by
  simp only [phoneStage, addIncident]
  split_ifs <;> first | exact ⟨_, rfl⟩ | exact ⟨[], by simp⟩

/-- One `checkIncidents` call only ever appends to the ledger. -/
theorem checkIncidents_appends (fc : Int) (pd : Bool) (now : Nat) (s : ExamState) :
    ∃ t, (checkIncidents fc pd now s).incidents = s.incidents ++ t := by
  obtain ⟨t1, h1⟩ := noFaceStage_appends fc now s
  obtain ⟨t2, h2⟩ := multiFaceStage_appends fc now (noFaceStage fc now s)
  obtain ⟨t3, h3⟩ := phoneStage_appends pd now (multiFaceStage fc now (noFaceStage fc now s))
  exact ⟨t1 ++ t2 ++ t3, by simp [checkIncidents, h1, h2, h3]⟩

end StudentExam

/-- C9. The ledger is append-only: each `pushSample` call extends the ledger by
a (possibly empty) suffix, existing records are never removed or mutated, and
the ledger length is non-decreasing across `pushSample` calls. -/
theorem C9_ledger_append_only :
    (∀ (s : StudentExam.ExamState) (x : StudentExam.Sample),
        ∃ t, (StudentExam.pushSample s x).incidents = s.incidents ++ t) ∧
    ∀ (xs : List StudentExam.Sample) (x : StudentExam.Sample),
      (∃ t, (StudentExam.runSamples (xs ++ [x])).incidents =
          (StudentExam.runSamples xs).incidents ++ t) ∧
        (StudentExam.runSamples xs).incidents.length ≤
          (StudentExam.runSamples (xs ++ [x])).incidents.length := by
  have h1 : ∀ (s : StudentExam.ExamState) (x : StudentExam.Sample),
      ∃ t, (StudentExam.pushSample s x).incidents = s.incidents ++ t :=
    fun s x => StudentExam.checkIncidents_appends x.faceCount x.phoneDetected x.timestamp s
  refine ⟨h1, fun xs x => ?_⟩
  have hrun : StudentExam.runSamples (xs ++ [x]) =
      StudentExam.pushSample (StudentExam.runSamples xs) x := by
    simp [StudentExam.runSamples, List.foldl_append]
  obtain ⟨t, ht⟩ := h1 (StudentExam.runSamples xs) x
  exact ⟨⟨t, by rw [hrun, ht]⟩, by rw [hrun, ht]; simp⟩

namespace StudentExam

/-- `addIncident` preserves the cooldown invariant when the new record's
instant lies past the class cooldown. -/
theorem addIncident_inv (ty : IncidentType) (d : String) (now : Nat)
    (s : ExamState) (h : ledgerInv s)
    (hgap : s.lastIncidentTime ty + 3000 < now) :
    ledgerInv (addIncident ty d now s) := by
  obtain ⟨hp, hb⟩ := h
  constructor
  · simp only [addIncident]
    rw [List.pairwise_append]
    refine ⟨hp, List.pairwise_singleton _ _, ?_⟩
    intro a ha b hbmem
    rw [List.mem_singleton] at hbmem
    subst hbmem
    simp only [gapOK]
    intro hty
    have hle := hb a ha
    rw [hty] at hle
    omega
  · intro i hi
    simp only [addIncident] at hi ⊢
    rcases List.mem_append.mp hi with h1 | h2
    · have hle := hb i h1
      by_cases hty : i.type = ty
      · rw [if_pos hty]
        rw [hty] at hle
        omega
      · rw [if_neg hty]; exact hle
    · rw [List.mem_singleton] at h2
      subst h2
      simp

theorem noFaceStage_inv (fc : Int) (now : Nat) (s : ExamState)
    (h : ledgerInv s) : ledgerInv (noFaceStage fc now s) := by
  simp only [noFaceStage]
  split_ifs with h1 h2
  · refine addIncident_inv _ _ _ _ h ?_
    have hc := h2.2
    unfold canLog at hc
    omega
  · exact h
  · exact h

theorem multiFaceStage_inv (fc : Int) (now : Nat) (s : ExamState)
    (h : ledgerInv s) : ledgerInv (multiFaceStage fc now s) := by
  simp only [multiFaceStage]
  split_ifs with h1 h2
  · refine addIncident_inv _ _ _ _ h ?_
    have hc := h2.2
    unfold canLog at hc
    omega
  · exact h
  · exact h

theorem phoneStage_inv (pd : Bool) (now : Nat) (s : ExamState)
    (h : ledgerInv s) : ledgerInv (phoneStage pd now s) := by
  simp only [phoneStage]
  split_ifs with h1
  · refine addIncident_inv _ _ _ _ h ?_
    have hc := h1.2
    unfold canLog at hc
    omega
  · exact h

theorem checkIncidents_inv (fc : Int) (pd : Bool) (now : Nat) (s : ExamState)
    (h : ledgerInv s) : ledgerInv (checkIncidents fc pd now s) :=
  phoneStage_inv pd now _ (multiFaceStage_inv fc now _ (noFaceStage_inv fc now s h))

/-- The cooldown invariant holds in every reachable state. -/
theorem foldl_inv (xs : List Sample) (s : ExamState) (h : ledgerInv s) :
    ledgerInv (xs.foldl pushSample s) := by
  induction xs generalizing s with
  | nil => exact h
  | cons x xs ih =>
    exact ih _ (checkIncidents_inv x.faceCount x.phoneDetected x.timestamp s h)

theorem initState_inv : ledgerInv initState := by
  constructor
  · exact List.Pairwise.nil
  · intro i hi
    simp [initState] at hi

end StudentExam

/-- C7. Cooldown correctness: in any reachable ledger, two incidents of the
same class are always logged more than the 3000 ms cooldown `C` apart; and in
the concrete two-streak scenarios, qualifying no-face streaks separated by less
than `C` (`streaksClose`, second qualifying point 1500 ms after the first log)
produce exactly one incident while streaks separated by more than `C`
(`streaksFar`, 6000 ms after) produce two. -/
theorem C7_cooldown_correct :
    (∀ xs : List StudentExam.Sample,
        List.Pairwise StudentExam.gapOK (StudentExam.runSamples xs).incidents) ∧
    (StudentExam.runSamples StudentExam.streaksClose).incidents.length = 1 ∧
    (StudentExam.runSamples StudentExam.streaksFar).incidents.length = 2 := by
  refine ⟨fun xs => ?_, by decide, by decide⟩
  exact (StudentExam.foldl_inv xs StudentExam.initState StudentExam.initState_inv).1

/-- C4 (counterexample). With the source's strict `> 5` comparison, a
cooldown-eligible run of exactly 5 consecutive triggering no-face samples
(`fiveNoFace`, timestamps 4000–6000) logs no incident at all — not the claimed
exactly one. -/
theorem C4_counterexample :
    (StudentExam.runSamples StudentExam.fiveNoFace).incidents = [] ∧
      ¬(StudentExam.runSamples StudentExam.fiveNoFace).incidents.length = 1 := by
  decide

/-- C4 (amended). With the `> 5` comparison a no-face streak must strictly
exceed the threshold: a cooldown-eligible run of exactly 6 consecutive
triggering samples logs exactly one incident (at the 6th sample); after 4
consecutive triggers followed by one non-triggering sample the consecutive
counter is reset to 0 with nothing logged; and a later streak of 5 after such a
reset still logs nothing — it must again strictly exceed the threshold. -/
theorem C4_debounce_amended :
    (∀ t1 t2 t3 t4 t5 t6 : Nat, 3000 < t6 →
      (StudentExam.runSamples [StudentExam.noFaceSample t1, StudentExam.noFaceSample t2,
          StudentExam.noFaceSample t3, StudentExam.noFaceSample t4,
          StudentExam.noFaceSample t5, StudentExam.noFaceSample t6]).incidents =
        [⟨.no_face, t6, "No face detected"⟩]) ∧
    (∀ t1 t2 t3 t4 t5 : Nat,
      (StudentExam.runSamples [StudentExam.noFaceSample t1, StudentExam.noFaceSample t2,
          StudentExam.noFaceSample t3, StudentExam.noFaceSample t4,
          StudentExam.faceSample t5]).consecutiveNoFace = 0 ∧
      (StudentExam.runSamples [StudentExam.noFaceSample t1, StudentExam.noFaceSample t2,
          StudentExam.noFaceSample t3, StudentExam.noFaceSample t4,
          StudentExam.faceSample t5]).incidents = []) ∧
    (∀ t1 t2 t3 t4 t5 t6 t7 t8 t9 t10 : Nat,
      (StudentExam.runSamples [StudentExam.noFaceSample t1, StudentExam.noFaceSample t2,
          StudentExam.noFaceSample t3, StudentExam.noFaceSample t4,
          StudentExam.faceSample t5, StudentExam.noFaceSample t6,
          StudentExam.noFaceSample t7, StudentExam.noFaceSample t8,
          StudentExam.noFaceSample t9, StudentExam.noFaceSample t10]).incidents = []) := by
  refine ⟨fun t1 t2 t3 t4 t5 t6 h => ?_, fun t1 t2 t3 t4 t5 => ?_,
    fun t1 t2 t3 t4 t5 t6 t7 t8 t9 t10 => ?_⟩
  · simp [StudentExam.runSamples, StudentExam.pushSample, StudentExam.checkIncidents,
      StudentExam.noFaceStage, StudentExam.multiFaceStage, StudentExam.phoneStage,
      StudentExam.canLog, StudentExam.addIncident, StudentExam.initState,
      StudentExam.noFaceSample, h]
  · constructor <;>
      simp [StudentExam.runSamples, StudentExam.pushSample, StudentExam.checkIncidents,
        StudentExam.noFaceStage, StudentExam.multiFaceStage, StudentExam.phoneStage,
        StudentExam.canLog, StudentExam.addIncident, StudentExam.initState,
        StudentExam.noFaceSample, StudentExam.faceSample]
  · simp [StudentExam.runSamples, StudentExam.pushSample, StudentExam.checkIncidents,
      StudentExam.noFaceStage, StudentExam.multiFaceStage, StudentExam.phoneStage,
      StudentExam.canLog, StudentExam.addIncident, StudentExam.initState,
      StudentExam.noFaceSample, StudentExam.faceSample]

/-- C4 witness: the amended theorem at timestamps 4000–6500, cooldown
discharged concretely. -/
theorem C4_debounce_amended_witness :
    3000 < 6500 ∧
      (StudentExam.runSamples [StudentExam.noFaceSample 4000, StudentExam.noFaceSample 4500,
          StudentExam.noFaceSample 5000, StudentExam.noFaceSample 5500,
          StudentExam.noFaceSample 6000, StudentExam.noFaceSample 6500]).incidents =
        [⟨.no_face, 6500, "No face detected"⟩] :=
  ⟨by decide, C4_debounce_amended.1 4000 4500 5000 5500 6000 6500 (by decide)⟩

/-- C5 (counterexample). A negative `faceCount` is not processed like a
zero-face sample: from `preStreak` (no-face streak of 5) at a cooldown-eligible
instant, a `faceCount = 0` sample logs a `no_face` incident while a
`faceCount = -1` sample logs nothing (it resets the streak instead). -/
theorem C5_counterexample :
    ¬(StudentExam.checkIncidents (-1) false 4000 StudentExam.preStreak).incidents =
        (StudentExam.checkIncidents 0 false 4000 StudentExam.preStreak).incidents := by
  decide

/-- C5 (amended). The tracker never fails on any sample, but a negative
`faceCount` is not clamped to 0: `checkIncidents` takes the `else` branches of
both face checks, so the sample is processed exactly like a face-present
(`faceCount = 1`) non-triggering sample — in particular it resets the NoFace
consecutive counter to 0 — and the stream continues. -/
theorem C5_negative_faceCount_amended (s : StudentExam.ExamState) (pd : Bool)
    (now : Nat) (fc : Int) (h : fc < 0) :
    StudentExam.checkIncidents fc pd now s = StudentExam.checkIncidents 1 pd now s ∧
      (StudentExam.checkIncidents fc pd now s).consecutiveNoFace = 0 := by
  have h0 : ¬fc = 0 := by omega
  have h1 : ¬1 < fc := by omega
  constructor
  · simp [StudentExam.checkIncidents, StudentExam.noFaceStage,
      StudentExam.multiFaceStage, h0, h1]
  · simp only [StudentExam.checkIncidents, StudentExam.noFaceStage,
      StudentExam.multiFaceStage, StudentExam.phoneStage, StudentExam.addIncident,
      if_neg h0, if_neg h1]
    split_ifs <;> rfl

/-- C5 witness: the amended theorem at `faceCount = -1` on the session-start
state. -/
theorem C5_negative_faceCount_amended_witness :
    (-1 : Int) < 0 ∧
      (StudentExam.checkIncidents (-1) false 0 StudentExam.initState =
          StudentExam.checkIncidents 1 false 0 StudentExam.initState ∧
        (StudentExam.checkIncidents (-1) false 0 StudentExam.initState).consecutiveNoFace = 0) :=
  ⟨by decide, C5_negative_faceCount_amended StudentExam.initState false 0 (-1) (by decide)⟩

theorem penaltyTable_nonneg (t : IncidentType) : 0 ≤ Spec.penaltyTable t := by
  cases t <;> simp [Spec.penaltyTable]

theorem totalPenalty_nonneg (l : List Incident) : 0 ≤ Spec.totalPenalty l := by
  refine List.sum_nonneg ?_
  intro x hx
  obtain ⟨i, _, hi⟩ := List.mem_map.mp hx
  exact hi ▸ penaltyTable_nonneg i.type

theorem totalPenalty_append (l : List Incident) (x : Incident) :
    Spec.totalPenalty (l ++ [x]) = Spec.totalPenalty l + Spec.penaltyTable x.type := by
  simp [Spec.totalPenalty]

/-- The per-class tally of `calculateTrustScore` sums to the spec's
`Σ penalty(class)` over the ledger. -/
theorem totalPenalty_counts (l : List Incident) :
    Spec.totalPenalty l =
      (AIProctor.countType .no_face l : Int) * 5
        + (AIProctor.countType .multi_face l : Int) * 10
        + (AIProctor.countType .looking_away l : Int) * 3
        + (AIProctor.countType .phone_detected l : Int) * 15
        + (AIProctor.countType .absence l : Int) * 8 := by
  induction l with
  | nil => simp [Spec.totalPenalty, AIProctor.countType]
  | cons x l ih =>
    obtain ⟨ty, ts, d⟩ := x
    cases ty <;>
      simp only [Spec.totalPenalty, List.map_cons, List.sum_cons, Spec.penaltyTable,
        AIProctor.countType, List.filter_cons] at ih ⊢ <;>
      simp only [decide_eq_true_eq] <;>
      norm_num <;>
      push_cast <;>
      omega

/-- `calculateTrustScore` computes exactly the spec's clamp formula. -/
theorem calculateTrustScore_eq_spec (l : List Incident) :
    AIProctor.calculateTrustScore l = Spec.score l := by
  have h := totalPenalty_counts l
  simp only [AIProctor.calculateTrustScore, Spec.score]
  omega

/-- C2 (counterexample). On a ledger of seven `phone_detected` records (total
penalty 105, score clamped to 0) an appended `looking_away` record does not
lower the score by exactly 3 — the score stays 0. -/
theorem C2_counterexample :
    ¬AIProctor.calculateTrustScore (phone7 ++ [⟨.looking_away, 0, "d"⟩]) =
        AIProctor.calculateTrustScore phone7 - 3 := by
  decide

/-- C2 (amended). The trust score equals
`clamp(100 − Σ penalty(class), 0, 100)` with the fixed penalty table
NoFace 5, MultiFace 10, LookingAway 3, PhoneDetected 15, Absence 8; and an
appended `looking_away` (resp. `absence`) record lowers the score by exactly 3
(resp. 8) provided the total penalty after the append still fits under the
lower clamp (`Σ + 3 ≤ 100`, resp. `Σ + 8 ≤ 100`). -/
theorem C2_score_formula_amended :
    (∀ l : List Incident, AIProctor.calculateTrustScore l = Spec.score l) ∧
    (∀ (l : List Incident) (ts : Nat) (d : String),
      Spec.totalPenalty l + 3 ≤ 100 →
        AIProctor.calculateTrustScore (l ++ [⟨.looking_away, ts, d⟩]) =
          AIProctor.calculateTrustScore l - 3) ∧
    (∀ (l : List Incident) (ts : Nat) (d : String),
      Spec.totalPenalty l + 8 ≤ 100 →
        AIProctor.calculateTrustScore (l ++ [⟨.absence, ts, d⟩]) =
          AIProctor.calculateTrustScore l - 8) := by
  refine ⟨calculateTrustScore_eq_spec, ?_, ?_⟩ <;>
    · intro l ts d h
      have h0 := totalPenalty_nonneg l
      rw [calculateTrustScore_eq_spec, calculateTrustScore_eq_spec]
      simp only [Spec.score, totalPenalty_append, Spec.penaltyTable]
      omega

/-- C2 witness: on the empty ledger the appended `looking_away` record lowers
the score from 100 to 97. -/
theorem C2_score_formula_amended_witness :
    Spec.totalPenalty [] + 3 ≤ 100 ∧
      AIProctor.calculateTrustScore ([] ++ [⟨.looking_away, 0, "d"⟩]) =
        AIProctor.calculateTrustScore [] - 3 :=
  ⟨by decide, C2_score_formula_amended.2.1 [] 0 "d" (by decide)⟩

/-- Over appends drawn from the classes `addIncident` is actually invoked with,
the incremental score stays equal to `max 0 (100 − Σ penalty)` of the ledger. -/
theorem appendRun_invariant (ap : List (IncidentType × String × Nat))
    (s : StudentExam.ExamState)
    (hall : ∀ a ∈ ap, a.1 = IncidentType.no_face ∨ a.1 = IncidentType.multi_face ∨
      a.1 = IncidentType.phone_detected)
    (h : s.trustScore = max 0 (100 - Spec.totalPenalty s.incidents)) :
    (ap.foldl (fun s a => StudentExam.addIncident a.1 a.2.1 a.2.2 s) s).trustScore =
      max 0 (100 - Spec.totalPenalty
        ((ap.foldl (fun s a => StudentExam.addIncident a.1 a.2.1 a.2.2 s) s).incidents)) := by
  induction ap generalizing s with
  | nil => exact h
  | cons a ap ih =>
    simp only [List.foldl_cons]
    refine ih _ (fun b hb => hall b (List.mem_cons_of_mem _ hb)) ?_
    have ha := hall a (List.mem_cons_self _ _)
    have h0 := totalPenalty_nonneg s.incidents
    simp only [StudentExam.addIncident, totalPenalty_append]
    rcases ha with h1 | h1 | h1 <;> rw [h1] <;>
      simp only [StudentExam.penalty, Spec.penaltyTable] <;> omega

/-- C8 (counterexample). `addIncident` assigns `looking_away` a penalty of 0,
so after appending a single `looking_away` record the incremental score is 100
while full recomputation by `calculateTrustScore` gives 97. -/
theorem C8_counterexample :
    ¬(StudentExam.addIncident .looking_away "Excessive looking away detected" 0
          StudentExam.initState).trustScore =
        AIProctor.calculateTrustScore
          (StudentExam.addIncident .looking_away "Excessive looking away detected" 0
            StudentExam.initState).incidents := by
  decide

/-- C8 (amended). For every sequence of incident appends drawn from the
classes the component actually logs (`no_face`, `multi_face`,
`phone_detected`), the incrementally maintained score equals the full
recomputation `calculateTrustScore` of the entire ledger; this holds for every
append list, hence at every intermediate point of a session. -/
theorem C8_incremental_eq_recompute_amended
    (appends : List (IncidentType × String × Nat))
    (hall : ∀ a ∈ appends, a.1 = IncidentType.no_face ∨ a.1 = IncidentType.multi_face ∨
      a.1 = IncidentType.phone_detected) :
    (StudentExam.appendRun appends).trustScore =
      AIProctor.calculateTrustScore (StudentExam.appendRun appends).incidents := by
  have h := appendRun_invariant appends StudentExam.initState hall
    (by simp [StudentExam.initState, Spec.totalPenalty])
  have h0 := totalPenalty_nonneg (StudentExam.appendRun appends).incidents
  rw [calculateTrustScore_eq_spec]
  simp only [Spec.score]
  simp only [StudentExam.appendRun] at h h0 ⊢
  omega

/-- C8 witness: a single `no_face` append — the incremental score (95) equals
the recomputed score, with the allowed-class hypothesis discharged by
`decide`. -/
theorem C8_incremental_eq_recompute_amended_witness :
    (StudentExam.appendRun [(IncidentType.no_face, "No face detected", 4000)]).trustScore =
      AIProctor.calculateTrustScore
        (StudentExam.appendRun [(IncidentType.no_face, "No face detected", 4000)]).incidents :=
  C8_incremental_eq_recompute_amended [(IncidentType.no_face, "No face detected", 4000)]
    (by decide)

set_option maxRecDepth 40000 in
/-- C6 (counterexample). Two sessions with identical configuration (exam
"examA", student "studentX", same exam content, duration and timer) fed the
identical ordered sample sequence `sessionSamples` — so with identical ledgers
and identical trust scores — but finalized at different wall-clock instants
(5000 vs 6000) produce different `proofHash` values: the digest serializes
`timestamp: Date.now()` taken at finalization, which samples and configuration
do not determine. -/
theorem C6_counterexample :
    ¬(StudentExam.handleEndExam "examA" "studentX" [] [] 60 3600
          (StudentExam.runSamples StudentExam.sessionSamples) 5000 []).1.proofHash =
        (StudentExam.handleEndExam "examA" "studentX" [] [] 60 3600
          (StudentExam.runSamples StudentExam.sessionSamples) 6000 []).1.proofHash := by
  decide

/-- C6 (amended). Two sessions fed the identical ordered sample sequence with
identical configuration produce identical incident ledgers and identical final
trust scores; and the `proofHash` is a deterministic function of its inputs, so
the two digests also agree provided the submitted answers and the finalization
instant (the digest's `timestamp` field) coincide as well. -/
theorem C6_determinism_amended (examId studentId : String)
    (questions : List StudentExam.Question) (a1 a2 : List (String × String))
    (dur tr : Nat) (xs ys : List StudentExam.Sample) (n1 n2 : Nat)
    (hsame : xs = ys) :
    ((StudentExam.runSamples xs).incidents = (StudentExam.runSamples ys).incidents ∧
      (StudentExam.runSamples xs).trustScore = (StudentExam.runSamples ys).trustScore) ∧
    (a1 = a2 → n1 = n2 →
      (StudentExam.handleEndExam examId studentId questions a1 dur tr
          (StudentExam.runSamples xs) n1 []).1.proofHash =
        (StudentExam.handleEndExam examId studentId questions a2 dur tr
          (StudentExam.runSamples ys) n2 []).1.proofHash) := by
  subst hsame
  refine ⟨⟨rfl, rfl⟩, ?_⟩
  rintro rfl rfl
  rfl

/-- C6 witness: the amended determinism at the concrete session of
`sessionSamples`, all hypotheses discharged by reflexivity. -/
theorem C6_determinism_amended_witness :
    StudentExam.sessionSamples = StudentExam.sessionSamples ∧
      (((StudentExam.runSamples StudentExam.sessionSamples).incidents =
          (StudentExam.runSamples StudentExam.sessionSamples).incidents ∧
        (StudentExam.runSamples StudentExam.sessionSamples).trustScore =
          (StudentExam.runSamples StudentExam.sessionSamples).trustScore) ∧
      ([] = ([] : List (String × String)) → 5000 = 5000 →
        (StudentExam.handleEndExam "examA" "studentX" [] [] 60 3600
            (StudentExam.runSamples StudentExam.sessionSamples) 5000 []).1.proofHash =
          (StudentExam.handleEndExam "examA" "studentX" [] [] 60 3600
            (StudentExam.runSamples StudentExam.sessionSamples) 5000 []).1.proofHash)) :=
  ⟨rfl, C6_determinism_amended "examA" "studentX" [] [] [] 60 3600
    StudentExam.sessionSamples StudentExam.sessionSamples 5000 5000 rfl⟩

set_option maxRecDepth 40000 in
/-- C3 (the code at the failing input). `handleEndExam` has no session-state
guard and no failure path: finalizing the same session a second time silently
succeeds — the proof store grows to two records, both second-call outputs are
well-formed digests, and the two persisted digests are distinct
(`timestamp: Date.now()` differs) — rather than failing with
`InvalidSessionState`, which appears nowhere in the code. -/
theorem C3_finalize_twice_produces_second_digest :
    StudentExam.finalizeTwice.2.length = 2 ∧
      StudentExam.finalizeTwice.1.proofHash.take 2 = "0x" ∧
      (StudentExam.finalizeTwice.2.map (fun p => p.proofHash)).Nodup := by
  decide
